import Mathlib

/-!
Verification development for the Tollgate proxy core (extractor, router,
pricing, alert evaluator). JavaScript semantics are shallowly embedded:
JS numbers appearing in the program are modelled as `Int`/`ℚ` (token counts
and thresholds are integers; prices and percent arithmetic are exact
rationals, abstracting IEEE-754 rounding), JS strings as `String` or
`List Char` (byte buffers are modelled at character granularity; the
streams of interest are ASCII), nullable values as `Option`, and thrown
exceptions are impossible by construction (all functions are total).
-/

namespace Tollgate

/-- Whitespace predicate used by JS `trim()` / `parseInt` (ASCII subset of
the Unicode whitespace classes those functions strip). -/
def jsWs (c : Char) : Bool :=
  [' ', '\t', '\n', '\r', '\x0b', '\x0c'].contains c

/-- Embedding of JS `String.prototype.trim`: drop whitespace from both ends. -/
def jsTrim (s : List Char) : List Char :=
  ((s.dropWhile jsWs).reverse.dropWhile jsWs).reverse

/-- Embedding of the JS idiom `v || d` for an optional numeric config field:
`undefined`/`null` and the falsy number `0` fall through to the default. -/
def jsOr (v : Option Int) (d : Int) : Int :=
  match v with
  | none => d
  | some x => if x = 0 then d else x

/-- Embedding of JS `Math.round` on exact rationals: half-up rounding
(`Math.round(x) = ⌊x + 1/2⌋`, ties toward positive infinity). -/
def jsRound (q : ℚ) : Int :=
  ⌊q + 1/2⌋

/-- Shared form of the percent computation
`Math.round(((knownLimit - remaining) / knownLimit) * 100)` that appears
verbatim in both `shouldRoute` (router.js) and `checkAlerts` (proxy.js). -/
def usedPercentCalc (knownLimit remaining : Int) : Int :=
  jsRound ((((knownLimit : ℚ) - (remaining : ℚ)) / (knownLimit : ℚ)) * 100)

/-- JSON values as produced by `JSON.parse`. Numbers are modelled as `Int`:
every numeric field this program reads is a token count; fractional and
exponent number forms are treated as unparseable (see `parseNum`). -/
inductive Json where
  | null : Json
  | bool (b : Bool) : Json
  | num (n : Int) : Json
  | str (s : String) : Json
  | arr (xs : List Json) : Json
  | obj (fields : List (String × Json)) : Json

/-- Truthiness of a JSON value under JS coercion (`NaN` cannot arise from
`JSON.parse`, so numbers are falsy exactly at 0). -/
def jsTruthy : Json → Bool
  | Json.null => false
  | Json.bool b => b
  | Json.num n => n != 0
  | Json.str s => s != ""
  | Json.arr _ => true
  | Json.obj _ => true

/-- Property access `j.k` on a parsed JSON value: defined only on objects,
`undefined` (here `none`) otherwise. `JSON.parse` keeps the last of
duplicate keys, hence the reverse lookup. -/
def Json.getField (j : Json) (k : String) : Option Json :=
  match j with
  | Json.obj fs => (fs.reverse.find? (fun p => p.1 == k)).map (·.2)
  | _ => none

/-- Embedding of the JS idiom `v || {}` applied to a field access. -/
def jsOrObj (v : Option Json) : Json :=
  match v with
  | some j => if jsTruthy j then j else Json.obj []
  | none => Json.obj []

/-- Numeric value of a digit string. -/
def digitsToNat (ds : List Char) : Nat :=
  ds.foldl (fun acc c => acc * 10 + (c.toNat - '0'.toNat)) 0

/-- Whitespace accepted between JSON tokens. -/
def jsonWs (c : Char) : Bool :=
  [' ', '\t', '\n', '\r'].contains c

/-- Decoded character for a JSON string escape (`\uXXXX` escapes are not
modelled; they do not occur in the streamed protocol). -/
def escChar (e : Char) : Option Char :=
  if e = '"' ∨ e = '\\' ∨ e = '/' then some e
  else if e = 'n' then some '\n'
  else if e = 't' then some '\t'
  else if e = 'r' then some '\r'
  else if e = 'b' then some '\x08'
  else if e = 'f' then some '\x0c'
  else none

/-- Body of a JSON string after the opening quote: returns the decoded
content and the input remaining after the closing quote. -/
def parseStrBody : List Char → Option (List Char × List Char)
  | [] => none
  | '"' :: rest => some ([], rest)
  | '\\' :: e :: rest =>
    match escChar e with
    | none => none
    | some c =>
      match parseStrBody rest with
      | none => none
      | some (cs, r) => some (c :: cs, r)
  | c :: rest =>
    match parseStrBody rest with
    | none => none
    | some (cs, r) => some (c :: cs, r)

/-- Integer JSON number at the head of the input (JSON grammar: optional
minus, no leading zeros; fraction/exponent forms are rejected — the
protocol's numeric fields are integer token counts). -/
def parseNum (s : List Char) : Option (Int × List Char) :=
  let signed := match s with
    | '-' :: r => ((-1 : Int), r)
    | r => ((1 : Int), r)
  let ds := signed.2.takeWhile Char.isDigit
  let rest := signed.2.drop ds.length
  if ds = [] then none
  else if ds.length > 1 ∧ ds.head? = some '0' then none
  else match rest with
    | '.' :: _ => none
    | 'e' :: _ => none
    | 'E' :: _ => none
    | _ => some (signed.1 * (digitsToNat ds : Int), rest)

mutual

/-- JSON value parser (embedding of `JSON.parse`), fuelled for termination;
every recursive call consumes input, so the generous fuel in
`parseJsonStr` never runs out on the strings it is applied to. -/
def parseVal : Nat → List Char → Option (Json × List Char)
  | 0, _ => none
  | Nat.succ fuel, s =>
    let t := s.dropWhile jsonWs
    match t with
    | [] => none
    | 'n' :: rest =>
      if "ull".toList.isPrefixOf rest then some (Json.null, rest.drop 3) else none
    | 't' :: rest =>
      if "rue".toList.isPrefixOf rest then some (Json.bool true, rest.drop 3) else none
    | 'f' :: rest =>
      if "alse".toList.isPrefixOf rest then some (Json.bool false, rest.drop 4) else none
    | '"' :: rest =>
      match parseStrBody rest with
      | none => none
      | some (cs, r) => some (Json.str cs.asString, r)
    | '[' :: rest =>
      let r := rest.dropWhile jsonWs
      match r with
      | ']' :: r2 => some (Json.arr [], r2)
      | _ =>
        match parseArrItems fuel r with
        | none => none
        | some (vs, r2) => some (Json.arr vs, r2)
    | '\x7b' :: rest =>
      let r := rest.dropWhile jsonWs
      match r with
      | '\x7d' :: r2 => some (Json.obj [], r2)
      | _ =>
        match parseObjItems fuel r with
        | none => none
        | some (ms, r2) => some (Json.obj ms, r2)
    | c :: _ =>
      if c = '-' ∨ c.isDigit then
        match parseNum t with
        | none => none
        | some (n, r) => some (Json.num n, r)
      else none

/-- Comma-separated array elements up to and including the closing bracket. -/
def parseArrItems : Nat → List Char → Option (List Json × List Char)
  | 0, _ => none
  | Nat.succ fuel, s =>
    match parseVal fuel s with
    | none => none
    | some (v, r) =>
      let r2 := r.dropWhile jsonWs
      match r2 with
      | ',' :: r3 =>
        match parseArrItems fuel r3 with
        | none => none
        | some (vs, r4) => some (v :: vs, r4)
      | ']' :: r3 => some ([v], r3)
      | _ => none

/-- Comma-separated object members up to and including the closing brace. -/
def parseObjItems : Nat → List Char → Option (List (String × Json) × List Char)
  | 0, _ => none
  | Nat.succ fuel, s =>
    let t := s.dropWhile jsonWs
    match t with
    | '"' :: r =>
      match parseStrBody r with
      | none => none
      | some (k, r2) =>
        let r3 := r2.dropWhile jsonWs
        match r3 with
        | ':' :: r4 =>
          match parseVal fuel r4 with
          | none => none
          | some (v, r5) =>
            let r6 := r5.dropWhile jsonWs
            match r6 with
            | ',' :: r7 =>
              match parseObjItems fuel r7 with
              | none => none
              | some (ms, r8) => some ((k.asString, v) :: ms, r8)
            | '\x7d' :: r7 => some ([(k.asString, v)], r7)
            | _ => none
        | _ => none
    | _ => none

end

/-- Embedding of `JSON.parse` on a whole document: one value followed only
by trailing whitespace, otherwise failure (`none` stands for the thrown
`SyntaxError`). -/
def parseJsonStr (s : String) : Option Json :=
  match parseVal (2 * s.length + 2) s.toList with
  | some (j, rest) => if rest.dropWhile jsonWs = [] then some j else none
  | none => none

/-- Embedding of JS `parseInt(s, 10)`: skip leading whitespace, optional
sign, then the longest digit prefix; `none` models the `NaN` result when no
digit is found. (JS would truncate astronomically long digit strings to a
float; the header values in scope are far below that range.) -/
def jsParseInt (s : List Char) : Option Int :=
  let t := s.dropWhile jsWs
  let sign : Int := if t.head? = some '-' then -1 else 1
  let core := if t.head? = some '-' ∨ t.head? = some '+' then t.tail else t
  let ds := core.takeWhile Char.isDigit
  if ds = [] then none else some (sign * (digitsToNat ds : Int))

/-- Embedding of `parseIntOrNull` (extractor.js): `undefined`/`null`/`''`
give `null`, otherwise `parseInt` with `NaN` mapped to `null`. -/
def parseIntOrNull (val : Option String) : Option Int :=
  match val with
  | none => none
  | some s => if s = "" then none else jsParseInt s.toList

/-- Rate-limit snapshot produced by `extractHeaders` (extractor.js). The
`ts: Date.now()` field is a wall-clock timestamp and is omitted from the
model; no modelled code reads it. -/
structure Snapshot where
  requestId : Option String
  requestsRemaining : Option Int
  tokensRemaining : Option Int
  inputTokensRemaining : Option Int
  outputTokensRemaining : Option Int
  requestsReset : Option String
  tokensReset : Option String
deriving DecidableEq

/-- Header maps are JS objects with lowercase keys; a lookup yields the
header value or `undefined`. -/
def hGet (headers : Option (String → Option String)) (k : String) : Option String :=
  match headers with
  | none => none
  | some f => f k

/-- Embedding of the JS idiom `v || null` on an optional string field
(the empty string is falsy and collapses to `null`). -/
def jsOrNullStr (v : Option String) : Option String :=
  match v with
  | none => none
  | some s => if s = "" then none else some s

/-- Embedding of `extractHeaders` (extractor.js): structured snapshot from
raw response headers, `headers || {}` guarding a null argument. -/
def extractHeaders (headers : Option (String → Option String)) : Snapshot :=
  { requestId := jsOrNullStr (hGet headers "request-id")
    requestsRemaining := parseIntOrNull (hGet headers "anthropic-ratelimit-requests-remaining")
    tokensRemaining := parseIntOrNull (hGet headers "anthropic-ratelimit-tokens-remaining")
    inputTokensRemaining := parseIntOrNull (hGet headers "anthropic-ratelimit-input-tokens-remaining")
    outputTokensRemaining := parseIntOrNull (hGet headers "anthropic-ratelimit-output-tokens-remaining")
    requestsReset := jsOrNullStr (hGet headers "anthropic-ratelimit-requests-reset")
    tokensReset := jsOrNullStr (hGet headers "anthropic-ratelimit-tokens-reset") }

/-- Usage record for one call (extractor.js). Counts are JS numbers
(integers in every reachable state); `stopReason`/`model` are nullable
strings. -/
structure Usage where
  inputTokens : Int
  outputTokens : Int
  cacheRead : Int
  cacheCreation : Int
  stopReason : Option String
  model : Option String
deriving DecidableEq

/-- Embedding of `emptyUsage` (extractor.js). -/
def emptyUsage : Usage :=
  { inputTokens := 0, outputTokens := 0, cacheRead := 0, cacheCreation := 0
    stopReason := none, model := none }

/-- Numeric read `o.k || 0` of a usage field: a numeric JSON value passes
through (0 is falsy and yields the default 0 either way); a missing field
yields 0. A non-numeric truthy value would flow through JS coercion into a
non-number — that shape never occurs in the protocol and is modelled as the
default. -/
def jsNumOrZero (v : Option Json) : Int :=
  match v with
  | some (Json.num n) => n
  | _ => 0

/-- String read `o.k || null` of a JSON field: a nonempty string passes
through; everything falsy maps to `null`. Non-string truthy values do not
occur in the protocol and are modelled as `null`. -/
def jsStrOrNull (v : Option Json) : Option String :=
  match v with
  | some (Json.str s) => if s = "" then none else some s
  | _ => none

/-- Embedding of `parseUsageFromObject` (extractor.js): usage fields from a
parsed response object, `data?.usage || {}` guarding the nesting. -/
def parseUsageFromObject (data : Json) : Usage :=
  let usage := jsOrObj (data.getField "usage")
  { inputTokens := jsNumOrZero (usage.getField "input_tokens")
    outputTokens := jsNumOrZero (usage.getField "output_tokens")
    cacheRead := jsNumOrZero (usage.getField "cache_read_input_tokens")
    cacheCreation := jsNumOrZero (usage.getField "cache_creation_input_tokens")
    stopReason := jsStrOrNull (data.getField "stop_reason")
    model := jsStrOrNull (data.getField "model") }

/-- Embedding of `extractBody` (extractor.js): `JSON.parse` the body, fall
back to `emptyUsage` on any parse failure (the `try`/`catch`). -/
def extractBody (rawBody : String) : Usage :=
  match parseJsonStr rawBody with
  | some data => parseUsageFromObject data
  | none => emptyUsage

namespace StreamTap

/-- Mutable state of a `StreamTap` instance: the partial-line buffer and
the accumulated usage (`this._buffer`, `this._usage`). -/
structure State where
  buffer : List Char
  usage : Usage
deriving DecidableEq

/-- Initial state set up by the `StreamTap` constructor. -/
def initState : State :=
  { buffer := [], usage := emptyUsage }

/-- Embedding of `buf.split('\n')` returning the complete lines and the
final fragment separately (`lines.pop()` in the source): the fragment is
the text after the last newline, possibly empty. -/
def splitNl : List Char → List (List Char) × List Char
  | [] => ([], [])
  | c :: rest =>
    let r := splitNl rest
    if c = '\n' then ([] :: r.1, r.2)
    else
      match r.1 with
      | [] => ([], c :: r.2)
      | l :: ls => ((c :: l) :: ls, r.2)

/-- Embedding of `_parseEvent` (extractor.js): update accumulated usage
from one parsed SSE data payload. The dispatch is on `data.type`; the
`eventType` argument from the `event:` line is received but never read. -/
def parseEvent (_eventType : Option (List Char)) (data : Json) (u : Usage) : Usage :=
  if ¬ jsTruthy data then u
  else
    match data.getField "type" with
    | some (Json.str t) =>
      if t = "message_start" then
        let msg := jsOrObj (data.getField "message")
        let usage := jsOrObj (msg.getField "usage")
        let u1 :=
          match usage.getField "input_tokens" with
          | some (Json.num n) => if n != 0 then { u with inputTokens := u.inputTokens + n } else u
          | _ => u
        let u2 :=
          match usage.getField "cache_read_input_tokens" with
          | some (Json.num n) => if n != 0 then { u1 with cacheRead := u1.cacheRead + n } else u1
          | _ => u1
        let u3 :=
          match usage.getField "cache_creation_input_tokens" with
          | some (Json.num n) => if n != 0 then { u2 with cacheCreation := u2.cacheCreation + n } else u2
          | _ => u2
        match msg.getField "model" with
        | some (Json.str m) => if m ≠ "" then { u3 with model := some m } else u3
        | _ => u3
      else if t = "message_delta" then
        let usage := jsOrObj (data.getField "usage")
        let u1 :=
          match usage.getField "output_tokens" with
          | some (Json.num n) => if n != 0 then { u with outputTokens := u.outputTokens + n } else u
          | _ => u
        let delta := jsOrObj (data.getField "delta")
        match delta.getField "stop_reason" with
        | some (Json.str r) => if r ≠ "" then { u1 with stopReason := some r } else u1
        | _ => u1
      else u
    | _ => u

/-- One iteration of the line loop shared by `_transform` and `_flush`:
`event:` lines update the (threaded, per-call) current event name; `data:`
lines are trimmed, the `[DONE]` marker skipped, and the JSON payload fed to
`_parseEvent`; unparseable payloads are skipped. -/
def lineStep (acc : Option (List Char) × Usage) (line : List Char) : Option (List Char) × Usage :=
  if "event:".toList.isPrefixOf line then
    (some (jsTrim (line.drop 6)), acc.2)
  else if "data:".toList.isPrefixOf line then
    let dataStr := jsTrim (line.drop 5)
    if dataStr = "[DONE]".toList then acc
    else
      match parseJsonStr dataStr.asString with
      | some d => (acc.1, parseEvent acc.1 d acc.2)
      | none => acc
  else acc

/-- Embedding of `_transform` (extractor.js): push the chunk through
unchanged (the returned `List Char`), append it to the buffer, split off
complete lines keeping the final fragment buffered, and run the line loop
with a fresh `currentEvent = null`. -/
def transform (st : State) (chunk : List Char) : State × List Char :=
  let parts := splitNl (st.buffer ++ chunk)
  ({ buffer := parts.2, usage := (parts.1.foldl lineStep (none, st.usage)).2 }, chunk)

/-- Embedding of `_flush` (extractor.js): if the remaining buffer is not
blank, split it and run the line loop over every piece (including the final
fragment — no `pop` here); the resulting usage is the value handed to the
`onUsage` completion callback. -/
def flush (st : State) : Usage :=
  if jsTrim st.buffer ≠ [] then
    let parts := splitNl st.buffer
    ((parts.1 ++ [parts.2]).foldl lineStep (none, st.usage)).2
  else st.usage

/-- Run of a `StreamTap` over a sequence of written chunks: the final state
and the list of chunks pushed downstream. -/
def runChunks (st : State) : List (List Char) → State × List (List Char)
  | [] => (st, [])
  | c :: cs =>
    let step := transform st c
    let rest := runChunks step.1 cs
    (rest.1, step.2 :: rest.2)

/-- Final usage delivered to the completion callback after writing the
given chunks and ending the stream. -/
def finalUsage (chunks : List (List Char)) : Usage :=
  flush (runChunks initState chunks).1

end StreamTap

/-- Substring test embedding JS `String.prototype.includes`. -/
def containsSub (s sub : List Char) : Bool :=
  sub.isPrefixOf s ||
    match s with
    | [] => false
    | _ :: r => containsSub r sub

/-- JS `s.includes(sub)` on strings. -/
def jsIncludes (s sub : String) : Bool :=
  containsSub s.toList sub.toList

/-- JS `s.startsWith(pre)` on strings (character-level prefix test). -/
def jsStartsWith (s pre : String) : Bool :=
  pre.toList.isPrefixOf s.toList

/-- JS `s.toLowerCase()` (ASCII case folding; model names are ASCII). -/
def jsToLower (s : String) : String :=
  (s.toList.map Char.toLower).asString

/-- Own property names of `Object.prototype` (the 12 members every plain
object literal inherits). A bracket lookup `obj[key]` on an object literal
with none of these as an own key still yields a truthy value for each of
them — a function, or (for `__proto__`) the prototype object itself. -/
def objectProtoKeys : List String :=
  ["constructor", "hasOwnProperty", "isPrototypeOf", "propertyIsEnumerable",
   "toLocaleString", "toString", "valueOf", "__proto__", "__defineGetter__",
   "__defineSetter__", "__lookupGetter__", "__lookupSetter__"]

/-- Pricing entry: USD per 1,000,000 tokens for input and output. -/
structure Pricing where
  input : ℚ
  output : ℚ
deriving DecidableEq

/-- Rates shared by the Opus 4 table rows and the `opus` keyword fallback
(`PRICING['claude-opus-4-6']` in the source). -/
def opusRate : Pricing := { input := 15, output := 75 }

/-- Rates shared by the Sonnet rows, the `sonnet` keyword fallback and the
unknown-model default (`PRICING['claude-sonnet-4-6']` in the source). -/
def sonnetRate : Pricing := { input := 3, output := 15 }

/-- Rates shared by the Haiku 4 rows and the `haiku` keyword fallback
(`PRICING['claude-haiku-4-6']` in the source). -/
def haikuRate : Pricing := { input := 0.8, output := 4 }

/-- Embedding of the `PRICING` table (pricing.js), in source insertion
order (the order `Object.entries` iterates for the prefix scan). -/
def PRICING : List (String × Pricing) :=
  [ ("claude-opus-4-6", opusRate)
  , ("claude-opus-4", opusRate)
  , ("claude-sonnet-4-6", sonnetRate)
  , ("claude-sonnet-4-5", sonnetRate)
  , ("claude-sonnet-4", sonnetRate)
  , ("claude-haiku-4-6", haikuRate)
  , ("claude-haiku-4-5", haikuRate)
  , ("claude-haiku-4", haikuRate)
  , ("claude-3-5-sonnet-20241022", sonnetRate)
  , ("claude-3-5-haiku-20241022", haikuRate)
  , ("claude-3-5-sonnet-20240620", sonnetRate)
  , ("claude-3-opus-20240229", opusRate)
  , ("claude-3-sonnet-20240229", sonnetRate)
  , ("claude-3-haiku-20240307", { input := 0.25, output := 1.25 }) ]

/-- Value of `getPricing`: a rate record from the table or a fallback, or
the truthy non-record value that `PRICING[model]` yields through the
prototype chain when the model name is an `Object.prototype` member with
no own table entry (the source's truthiness guard returns it as-is). -/
inductive PricingResult where
  | rates (p : Pricing) : PricingResult
  | protoVal : PricingResult
deriving DecidableEq

/-- Bracket lookup `PRICING[m]` including the prototype chain: an own
entry (always a truthy record), else a truthy inherited value for
`Object.prototype` member names, else `undefined`. -/
def jsIndexPricing (o : List (String × Pricing)) (k : String) : Option PricingResult :=
  match o.find? (fun p => p.1 == k) with
  | some p => some (PricingResult.rates p.2)
  | none => if objectProtoKeys.contains k then some PricingResult.protoVal else none

/-- Embedding of `getPricing` (pricing.js): the truthiness-guarded bracket
lookup `PRICING[model]` first (own entry, or a truthy inherited
`Object.prototype` value for colliding names), then prefix match in either
direction over the table in order, then case-insensitive keyword fallback,
then the Sonnet mid-tier default. A falsy model name (missing or empty)
takes the default immediately. -/
def getPricing (model : Option String) : PricingResult :=
  match model with
  | none => PricingResult.rates sonnetRate
  | some m =>
    if m = "" then PricingResult.rates sonnetRate
    else
      match jsIndexPricing PRICING m with
      | some r => r
      | none =>
        match PRICING.find? (fun p => jsStartsWith m p.1 || jsStartsWith p.1 m) with
        | some p => PricingResult.rates p.2
        | none =>
          let lower := jsToLower m
          if jsIncludes lower "opus" then PricingResult.rates opusRate
          else if jsIncludes lower "haiku" then PricingResult.rates haikuRate
          else PricingResult.rates sonnetRate

/-- Embedding of `estimateCost` (pricing.js): per-term division by one
million, cache reads at 10% and cache creation at 125% of the input rate.
When the lookup returned an inherited non-record value, `pricing.input`
and `pricing.output` are `undefined` and every term is `NaN`; the `NaN`
result is modelled as `none`. -/
def estimateCost (model : Option String)
    (inputTokens outputTokens cacheReadTokens cacheCreationTokens : ℚ) : Option ℚ :=
  match getPricing model with
  | PricingResult.protoVal => none
  | PricingResult.rates pricing =>
    let inputCost := (inputTokens / 1000000) * pricing.input
    let outputCost := (outputTokens / 1000000) * pricing.output
    let cacheReadCost := (cacheReadTokens / 1000000) * (pricing.input * 0.1)
    let cacheCreationCost := (cacheCreationTokens / 1000000) * (pricing.input * 1.25)
    some (inputCost + outputCost + cacheReadCost + cacheCreationCost)

/-- Routing section of the config (`config.routing`). -/
structure RoutingConfig where
  enabled : Bool
  threshold : Option Int
  knownLimit : Option Int
  ladder : Option (List (String × String))

/-- Alerts section of the config (`config.alerts`). -/
structure AlertsConfig where
  tokenWarningPercent : Option Int
  tokenCriticalPercent : Option Int

/-- Tollgate configuration: the sections the modelled core reads. -/
structure Config where
  routing : Option RoutingConfig
  alerts : Option AlertsConfig

/-- Latest snapshot row as read back from the database by the router
(snake_case column names; only the columns router.js touches). -/
structure DbSnapshot where
  tokens_remaining : Option Int
  tokens_reset : Option String
  input_tokens_remaining : Option Int
  output_tokens_remaining : Option Int

/-- Embedding of `DEFAULT_LADDER` (router.js) in source insertion order. -/
def DEFAULT_LADDER : List (String × String) :=
  [ ("claude-opus-4-6", "claude-sonnet-4-6")
  , ("claude-sonnet-4-6", "claude-haiku-4-6")
  , ("claude-sonnet-4-5", "claude-haiku-4-6")
  , ("claude-opus-4", "claude-sonnet-4-6")
  , ("claude-sonnet-4", "claude-haiku-4-6") ]

/-- Embedding of `computeUsagePercent` (router.js). Despite its name and
stale doc comment, the function returns the raw `tokens_remaining` value as
a sentinel (its inline comment: the caller computes the percent); the reads
of `tokens_reset` and the input/output remaining columns in the source bind
unused locals and are omitted. -/
def computeUsagePercent (latestSnapshot : Option DbSnapshot) : Option Int :=
  match latestSnapshot with
  | none => none
  | some s =>
    match s.tokens_remaining with
    | none => none
    | some remaining => some remaining

/-- Result record of `shouldRoute` (router.js). -/
structure RouteCheck where
  shouldRoute : Bool
  usedPercent : Option Int
  tokensRemaining : Option Int
deriving DecidableEq

/-- Embedding of `shouldRoute` (router.js): disabled routing, a missing
snapshot or missing tokens-remaining short-circuit to no-route; otherwise
the percent is computed against `knownLimit || 400000` and compared
inclusively against `threshold || 80`. -/
def shouldRoute (latestSnapshot : Option DbSnapshot) (config : Config) : RouteCheck :=
  match config.routing with
  | none => { shouldRoute := false, usedPercent := none, tokensRemaining := none }
  | some rc =>
    if ¬ rc.enabled then { shouldRoute := false, usedPercent := none, tokensRemaining := none }
    else
      match latestSnapshot with
      | none => { shouldRoute := false, usedPercent := none, tokensRemaining := none }
      | some snap =>
        match snap.tokens_remaining with
        | none => { shouldRoute := false, usedPercent := none, tokensRemaining := none }
        | some remaining =>
          let knownLimit := jsOr rc.knownLimit 400000
          let usedPercent := usedPercentCalc knownLimit remaining
          let threshold := jsOr rc.threshold 80
          { shouldRoute := decide (usedPercent ≥ threshold)
            usedPercent := some usedPercent
            tokensRemaining := some remaining }

/-- Request body: the `model` field the router may rewrite, plus the other
fields, which a reroute must carry over unchanged (the shallow copy
`{ ...requestBody, model }`). The model field is modelled for the shapes
the router's string operations handle — absent or a string; a truthy
non-string model value would reach `model.startsWith` in the prefix scan
and is outside the modelled domain. -/
structure RequestBody where
  model : Option String
  rest : List (String × Json)

/-- Value `findDowngrade` returns when truthy: the ladder's target string,
or the truthy non-string value that `ladder[model]` yields through the
prototype chain when the model name is an `Object.prototype` member with
no own ladder entry. -/
inductive Downgrade where
  | str (s : String) : Downgrade
  | protoVal : Downgrade
deriving DecidableEq

/-- Body field of a routing decision: the input object passed through
untouched, or a shallow copy of it with only the `model` field replaced by
the downgrade target (a string, or the inherited non-string value). -/
inductive RoutedBody where
  | orig (b : Option RequestBody) : RoutedBody
  | modelSet (b : RequestBody) (t : Downgrade) : RoutedBody

/-- Result record of `maybeReroute` (router.js). -/
structure RouteResult where
  body : RoutedBody
  routedFrom : Option String
  routedTo : Option Downgrade
  usedPercent : Option Int

/-- Bracket lookup `ladder[m]` including the prototype chain: an own entry
(a string), else a truthy inherited value for `Object.prototype` member
names, else `undefined` (`none`). -/
def jsIndexLadder (o : List (String × String)) (k : String) : Option Downgrade :=
  match o.find? (fun p => p.1 == k) with
  | some p => some (Downgrade.str p.2)
  | none => if objectProtoKeys.contains k then some Downgrade.protoVal else none

/-- Embedding of `findDowngrade` (router.js): the truthiness-guarded
bracket lookup `ladder[model]` first — an own entry with a nonempty
target, or a truthy inherited `Object.prototype` value for colliding
names — else the first `Object.entries` (own entries only) whose key is a
prefix of the model. -/
def findDowngrade (model : String) (ladder : List (String × String)) : Option Downgrade :=
  if model = "" then none
  else
    let scanPrefix : Option Downgrade :=
      match ladder.find? (fun p => jsStartsWith model p.1) with
      | some p => some (Downgrade.str p.2)
      | none => none
    match jsIndexLadder ladder model with
    | some (Downgrade.str v) => if v ≠ "" then some (Downgrade.str v) else scanPrefix
    | some Downgrade.protoVal => some Downgrade.protoVal
    | none => scanPrefix

/-- Ladder selection `config?.routing?.ladder || DEFAULT_LADDER`
(a present ladder object is truthy even when empty). -/
def ladderOf (config : Config) : List (String × String) :=
  match config.routing with
  | none => DEFAULT_LADDER
  | some rc =>
    match rc.ladder with
    | none => DEFAULT_LADDER
    | some l => l

/-- Embedding of `maybeReroute` (router.js): pure routing decision; the
body is rewritten (shallow copy, only `model` replaced) exactly when
routing triggers, the body carries a truthy model, and `findDowngrade`
yields a truthy target not strictly equal (`===`) to the requested model —
the empty-string target is falsy, and an inherited non-string target is
truthy and never `===` a string, so it is written into the body. -/
def maybeReroute (requestBody : Option RequestBody) (latestSnapshot : Option DbSnapshot)
    (config : Config) : RouteResult :=
  match requestBody with
  | none =>
    { body := RoutedBody.orig none, routedFrom := none, routedTo := none, usedPercent := none }
  | some body =>
    let rc := shouldRoute latestSnapshot config
    let base : RouteResult :=
      { body := RoutedBody.orig (some body), routedFrom := none, routedTo := none
        usedPercent := rc.usedPercent }
    if ¬ rc.shouldRoute then base
    else
      match body.model with
      | none => base
      | some m =>
        if m = "" then base
        else
          match findDowngrade m (ladderOf config) with
          | none => base
          | some t =>
            if t = Downgrade.str "" ∨ t = Downgrade.str m then base
            else
              { body := RoutedBody.modelSet body t
                routedFrom := some m
                routedTo := some t
                usedPercent := rc.usedPercent }

/-- Alerts config after the `config?.alerts || {}` guard. -/
def alertsOf (cfg : Config) : AlertsConfig :=
  cfg.alerts.getD { tokenWarningPercent := none, tokenCriticalPercent := none }

/-- Warning threshold `alerts.tokenWarningPercent || 80` (proxy.js). -/
def warningPctOf (cfg : Config) : Int :=
  jsOr (alertsOf cfg).tokenWarningPercent 80

/-- Critical threshold `alerts.tokenCriticalPercent || 95` (proxy.js). -/
def criticalPctOf (cfg : Config) : Int :=
  jsOr (alertsOf cfg).tokenCriticalPercent 95

/-- Known limit `config?.routing?.knownLimit || 400000` as read by
`checkAlerts` (proxy.js). -/
def alertKnownLimitOf (cfg : Config) : Int :=
  jsOr (cfg.routing.bind RoutingConfig.knownLimit) 400000

/-- Dedup key for the warning tier (`warning-${warningPct}`). -/
def warningKeyOf (cfg : Config) : String :=
  "warning-" ++ toString (warningPctOf cfg)

/-- Dedup key for the critical tier (`critical-${criticalPct}`). -/
def criticalKeyOf (cfg : Config) : String :=
  "critical-" ++ toString (criticalPctOf cfg)

/-- Observable alert-evaluator outputs: the `alert` events for the two
tiers and the `reset` (recovery) event. Wall-clock payload parts
(`minutesUntilReset`, message strings) and the fire-and-forget side
channels (terminal log, `db.insertAlert`, push notification — failures
swallowed in the source) are not modelled. -/
inductive AlertEvent where
  | warning (threshold usedPercent remaining : Int)
  | critical (threshold usedPercent remaining : Int)
  | recovery (remaining usedPercent : Int)
deriving DecidableEq

/-- Embedding of `checkAlerts` (proxy.js): threshold evaluation against
the fired-alert dedup set `_firedAlerts` (modelled as the list of fired
keys), returning the new set and the emitted events in order. -/
def checkAlerts (snap : Snapshot) (cfg : Config) (fired : List String) :
    List String × List AlertEvent :=
  match snap.tokensRemaining with
  | none => (fired, [])
  | some remaining =>
    let warningPct := warningPctOf cfg
    let criticalPct := criticalPctOf cfg
    let knownLimit := alertKnownLimitOf cfg
    let usedPercent := usedPercentCalc knownLimit remaining
    let warningKey := warningKeyOf cfg
    let criticalKey := criticalKeyOf cfg
    let s1 : List String × List AlertEvent :=
      if usedPercent ≥ warningPct ∧ ¬ fired.contains warningKey then
        (warningKey :: fired, [AlertEvent.warning warningPct usedPercent remaining])
      else (fired, [])
    let s2 : List String × List AlertEvent :=
      if usedPercent ≥ criticalPct ∧ ¬ s1.1.contains criticalKey then
        (criticalKey :: s1.1, s1.2 ++ [AlertEvent.critical criticalPct usedPercent remaining])
      else s1
    if usedPercent < warningPct ∧ s2.1 ≠ [] then
      ([], s2.2 ++ [AlertEvent.recovery remaining usedPercent])
    else s2

/-- Run of the alert evaluator over a sequence of snapshots, accumulating
the emitted events in order. -/
def runAlerts (cfg : Config) : List Snapshot → List String → List String × List AlertEvent
  | [], fired => (fired, [])
  | s :: rest, fired =>
    let step := checkAlerts s cfg fired
    let tail := runAlerts cfg rest step.1
    (tail.1, step.2 ++ tail.2)

/-- Recognizer for warning-tier events. -/
def isWarningEv : AlertEvent → Bool
  | AlertEvent.warning _ _ _ => true
  | _ => false

/-- Recognizer for critical-tier events. -/
def isCriticalEv : AlertEvent → Bool
  | AlertEvent.critical _ _ _ => true
  | _ => false

/-- Recognizer for recovery (`reset`) events. -/
def isRecoveryEv : AlertEvent → Bool
  | AlertEvent.recovery _ _ => true
  | _ => false

/-- Specification-side predicate (not part of the source embedding): a
character sequence is "numeric-ish" for `parseInt` when, after leading
whitespace and an optional sign, it starts with a decimal digit. Used to
state when header parsing yields an absent value. -/
def hasLeadingIntL (l : List Char) : Bool :=
  let t := l.dropWhile jsWs
  let core := if t.head? = some '-' ∨ t.head? = some '+' then t.tail else t
  (core.head?.map Char.isDigit).getD false

/-- String form of `hasLeadingIntL`. -/
def hasLeadingInt (s : String) : Bool :=
  hasLeadingIntL s.toList

/-- Concrete streaming exchange for the round-trip claims: one
`message_start` event carrying `input_tokens: 30` and one `message_delta`
event carrying `output_tokens: 60`; the final data line is not
newline-terminated, so it is still in the line buffer at stream end and is
parsed by the flush path. -/
def sseExchange : String :=
  "event: message_start\ndata: \x7b\"type\":\"message_start\",\"message\":\x7b\"usage\":\x7b\"input_tokens\":30\x7d,\"model\":\"claude-opus-4-6\"\x7d\x7d\n\nevent: message_delta\ndata: \x7b\"type\":\"message_delta\",\"delta\":\x7b\"stop_reason\":\"end_turn\"\x7d,\"usage\":\x7b\"output_tokens\":60\x7d\x7d"

/-- Concrete streaming exchange with duplicate events: two `message_start`
events (`input_tokens` 10 and 20, `cache_read_input_tokens` 5 and 7) and
two `message_delta` events (`output_tokens` 25 and 35), exercising
accumulation by addition. -/
def sseExchangeDup : String :=
  "event: message_start\ndata: \x7b\"type\":\"message_start\",\"message\":\x7b\"usage\":\x7b\"input_tokens\":10,\"cache_read_input_tokens\":5\x7d\x7d\x7d\n\nevent: message_start\ndata: \x7b\"type\":\"message_start\",\"message\":\x7b\"usage\":\x7b\"input_tokens\":20,\"cache_read_input_tokens\":7\x7d\x7d\x7d\n\nevent: message_delta\ndata: \x7b\"type\":\"message_delta\",\"usage\":\x7b\"output_tokens\":25\x7d\x7d\n\nevent: message_delta\ndata: \x7b\"type\":\"message_delta\",\"delta\":\x7b\"stop_reason\":\"end_turn\"\x7d,\"usage\":\x7b\"output_tokens\":35\x7d\x7d\n"

/-- Digits-prefix emptiness matches the head-digit test. -/
theorem takeWhile_digit_nil (core : List Char) :
    (core.takeWhile Char.isDigit = []) ↔
      ((core.head?.map Char.isDigit).getD false = false) := by
  cases core with
  | nil => simp
  | cons c r => by_cases hd : c.isDigit <;> simp [List.takeWhile_cons, hd]

/-- Parsing with `parseInt` yields `NaN` (`none`) exactly when the input,
after whitespace and an optional sign, does not start with a digit. -/
theorem jsParseInt_eq_none_iff (l : List Char) :
    jsParseInt l = none ↔ hasLeadingIntL l = false := by
  simp only [jsParseInt, hasLeadingIntL]
  generalize (if (l.dropWhile jsWs).head? = some '-' ∨ (l.dropWhile jsWs).head? = some '+'
    then (l.dropWhile jsWs).tail else l.dropWhile jsWs) = core
  by_cases h : core.takeWhile Char.isDigit = []
  · simp [h, (takeWhile_digit_nil core).mp h]
  · cases hx : (core.head?.map Char.isDigit).getD false with
    | false => exact absurd ((takeWhile_digit_nil core).mpr hx) h
    | true => simp [h, hx]

/-- Every rate record produced by the pricing resolution pipeline is
non-negative (all table rows and fallbacks are). -/
theorem getPricing_rate_nonneg (model : Option String) (p : Pricing)
    (h : getPricing model = PricingResult.rates p) :
    0 ≤ p.input ∧ 0 ≤ p.output := by
  have hall : ∀ q ∈ PRICING, 0 ≤ q.2.input ∧ 0 ≤ q.2.output := by
    intro q hq
    simp only [PRICING, List.mem_cons, List.not_mem_nil, or_false] at hq
    rcases hq with rfl | rfl | rfl | rfl | rfl | rfl | rfl | rfl | rfl | rfl | rfl | rfl | rfl | rfl <;>
      exact ⟨by norm_num [opusRate, sonnetRate, haikuRate], by norm_num [opusRate, sonnetRate, haikuRate]⟩
  rcases model with _ | m
  · have hq : sonnetRate = p := by simpa [getPricing] using h
    rw [← hq]
    constructor <;> norm_num [sonnetRate]
  · by_cases hm : m = ""
    · have hq : sonnetRate = p := by simpa [getPricing, hm] using h
      rw [← hq]
      constructor <;> norm_num [sonnetRate]
    · cases h1 : PRICING.find? (fun q => q.1 == m) with
      | some q =>
        have hmem := hall q (List.mem_of_find?_eq_some h1)
        have hq : q.2 = p := by simpa [getPricing, jsIndexPricing, hm, h1] using h
        exact hq ▸ hmem
      | none =>
        by_cases hpk : m ∈ objectProtoKeys
        · simp [getPricing, jsIndexPricing, hm, h1, hpk] at h
        · cases h2 : PRICING.find? (fun q => jsStartsWith m q.1 || jsStartsWith q.1 m) with
          | some q =>
            have hmem := hall q (List.mem_of_find?_eq_some h2)
            have hq : q.2 = p := by
              simpa [getPricing, jsIndexPricing, hm, h1, hpk, h2] using h
            exact hq ▸ hmem
          | none =>
            by_cases h3 : jsIncludes (jsToLower m) "opus"
            · have hq : opusRate = p := by
                simpa [getPricing, jsIndexPricing, hm, h1, hpk, h2, h3] using h
              rw [← hq]
              constructor <;> norm_num [opusRate]
            · by_cases h4 : jsIncludes (jsToLower m) "haiku"
              · have hq : haikuRate = p := by
                  simpa [getPricing, jsIndexPricing, hm, h1, hpk, h2, h3, h4] using h
                rw [← hq]
                constructor <;> norm_num [haikuRate]
              · have hq : sonnetRate = p := by
                  simpa [getPricing, jsIndexPricing, hm, h1, hpk, h2, h3, h4] using h
                rw [← hq]
                constructor <;> norm_num [sonnetRate]

/-- Claim C3 as stated is false at a concrete input: for a snapshot with
80000 tokens remaining (known limit 400000 would give a used percent of
80), `computeUsagePercent` returns the raw remaining count 80000, not a
percent. -/
theorem C3_counterexample :
    computeUsagePercent (some ⟨some 80000, none, none, none⟩) = some 80000 ∧
    usedPercentCalc 400000 80000 = 80 ∧ (80000 : Int) ≠ 80 := by
  refine ⟨rfl, ?_, by decide⟩
  norm_num [usedPercentCalc, jsRound]

/-- Claim C3, amended: `computeUsagePercent` takes no known-limit argument
and returns the snapshot's raw tokens-remaining as a sentinel — absent
exactly when the snapshot or its tokens-remaining is absent; the percent
form `round(((knownLimit - remaining) / knownLimit) * 100)` is computed by
`shouldRoute`, not by this function. -/
theorem C3_compute_usage_percent_sentinel (latestSnapshot : Option DbSnapshot) :
    computeUsagePercent latestSnapshot = latestSnapshot.bind DbSnapshot.tokens_remaining := by
  rcases latestSnapshot with _ | s
  · rfl
  · cases h : s.tokens_remaining <;> simp [computeUsagePercent, h]

/-- Claim C5 as stated is false at a concrete input: a header map carrying
`anthropic-ratelimit-tokens-remaining: "-5"` yields the negative integer
-5 in the snapshot (JS `parseInt` accepts a sign; nothing clamps). -/
theorem C5_counterexample :
    (extractHeaders (some (fun k =>
        if k = "anthropic-ratelimit-tokens-remaining" then some "-5" else none))).tokensRemaining
      = some (-5) ∧ (-5 : Int) < 0 := by
  constructor
  · decide
  · decide

/-- Claim C5, amended: `extractHeaders` is total and each of the four
remaining fields is `parseIntOrNull` of the corresponding header — an
integer or absent, never a string, with missing, empty, or non-numeric
values (no leading digit after optional sign) yielding absent rather than
zero; a negative-signed numeric header, however, yields a negative
integer. -/
theorem C5_remaining_fields (headers : Option (String → Option String)) :
    (extractHeaders headers).requestsRemaining
        = parseIntOrNull (hGet headers "anthropic-ratelimit-requests-remaining") ∧
    (extractHeaders headers).tokensRemaining
        = parseIntOrNull (hGet headers "anthropic-ratelimit-tokens-remaining") ∧
    (extractHeaders headers).inputTokensRemaining
        = parseIntOrNull (hGet headers "anthropic-ratelimit-input-tokens-remaining") ∧
    (extractHeaders headers).outputTokensRemaining
        = parseIntOrNull (hGet headers "anthropic-ratelimit-output-tokens-remaining") ∧
    (∀ v : Option String, parseIntOrNull v = none ↔
        (v = none ∨ ∃ s, v = some s ∧ (s = "" ∨ hasLeadingInt s = false))) := by
  refine ⟨rfl, rfl, rfl, rfl, ?_⟩
  intro v
  rcases v with _ | s
  · simp [parseIntOrNull]
  · by_cases hs : s = ""
    · simp [parseIntOrNull, hs]
    · simp [parseIntOrNull, hs, hasLeadingInt, jsParseInt_eq_none_iff]

/-- Claim C6: with 80000 of 400000 tokens remaining, `shouldRoute`
computes a used percent of exactly 80 and routes at threshold 80; in
general, with routing enabled and tokens-remaining present, the decision
is `true` exactly when the used percent is at least the threshold
(inclusive boundary). -/
theorem C6_threshold_boundary_inclusive :
    (shouldRoute
        (some { tokens_remaining := some 80000, tokens_reset := none,
                input_tokens_remaining := none, output_tokens_remaining := none })
        { routing := some { enabled := true, threshold := some 80,
                            knownLimit := some 400000, ladder := none }, alerts := none })
      = { shouldRoute := true, usedPercent := some 80, tokensRemaining := some 80000 } ∧
    (∀ (snap : DbSnapshot) (rc : RoutingConfig) (al : Option AlertsConfig) (r : Int),
        rc.enabled = true → snap.tokens_remaining = some r →
        ((shouldRoute (some snap) { routing := some rc, alerts := al }).shouldRoute = true ↔
          usedPercentCalc (jsOr rc.knownLimit 400000) r ≥ jsOr rc.threshold 80)) := by
  constructor
  · have h : usedPercentCalc 400000 80000 = 80 := by norm_num [usedPercentCalc, jsRound]
    simp [shouldRoute, jsOr, h]
  · intro snap rc al r hen hrem
    simp [shouldRoute, hen, hrem]

/-- Witness for C6: the general boundary-inclusive part instantiated at
the concrete 80000-of-400000 snapshot. -/
theorem C6_threshold_boundary_inclusive_witness :
    (shouldRoute
        (some { tokens_remaining := some 80000, tokens_reset := none,
                input_tokens_remaining := none, output_tokens_remaining := none })
        { routing := some { enabled := true, threshold := some 80,
                            knownLimit := some 400000, ladder := none }, alerts := none }).shouldRoute
      = true := by
  refine (C6_threshold_boundary_inclusive.2
    { tokens_remaining := some 80000, tokens_reset := none,
      input_tokens_remaining := none, output_tokens_remaining := none }
    { enabled := true, threshold := some 80, knownLimit := some 400000, ladder := none }
    none 80000 rfl rfl).mpr ?_
  norm_num [usedPercentCalc, jsOr, jsRound]

/-- Claim C8 as stated is false at a concrete input: the model name
`constructor` has no own entry in the `PRICING` table, yet
`PRICING['constructor']` is the truthy `Object` constructor inherited
through the prototype chain, so `getPricing` returns it, `pricing.input`
is `undefined`, and `estimateCost` returns `NaN` (modelled `none`) — not a
finite non-negative number. -/
theorem C8_counterexample :
    PRICING.find? (fun p => p.1 == "constructor") = none ∧
    getPricing (some "constructor") = PricingResult.protoVal ∧
    estimateCost (some "constructor") 1000000 0 0 0 = none := by
  have h : getPricing (some "constructor") = PricingResult.protoVal := by decide
  exact ⟨by decide, h, by simp [estimateCost, h]⟩

/-- Claim C8, amended: whenever the pricing resolution yields a rate
record, `estimateCost` equals the specified per-million formula with cache
reads at 10% and cache creation at 125% of the input rate;
`claude-opus-4-6` at one million input tokens costs exactly $15 (within
the claimed 1e-4); every model name that is not an `Object.prototype`
member resolves to a rate record, making the cost a finite non-negative
number for non-negative token counts (unknown names fall back to the
mid-tier Sonnet rates); a colliding name yields `NaN` instead. -/
theorem C8_estimate_cost :
    (∀ (model : Option String) (i o cr cc : ℚ) (p : Pricing),
        getPricing model = PricingResult.rates p →
        estimateCost model i o cr cc =
          some ((i * p.input + o * p.output + cr * (p.input * 0.1) +
            cc * (p.input * 1.25)) / 1000000)) ∧
    estimateCost (some "claude-opus-4-6") 1000000 0 0 0 = some 15 ∧
    (∀ q : ℚ, estimateCost (some "claude-opus-4-6") 1000000 0 0 0 = some q →
        |q - 15| < 1 / 10000) ∧
    (∀ m : String, objectProtoKeys.contains m = false →
        ∃ p, getPricing (some m) = PricingResult.rates p) ∧
    (∀ (model : Option String) (i o cr cc q : ℚ), 0 ≤ i → 0 ≤ o → 0 ≤ cr → 0 ≤ cc →
        estimateCost model i o cr cc = some q → 0 ≤ q) ∧
    getPricing (some "totally-unknown-model-xyz") = PricingResult.rates sonnetRate := by
  have hopus : getPricing (some "claude-opus-4-6") = PricingResult.rates opusRate := by decide
  have hconc : estimateCost (some "claude-opus-4-6") 1000000 0 0 0 = some 15 := by
    norm_num [estimateCost, hopus, opusRate]
  refine ⟨?_, hconc, ?_, ?_, ?_, by decide⟩
  · intro model i o cr cc p hp
    simp only [estimateCost, hp]
    congr 1
    ring
  · intro q hq
    rw [hconc] at hq
    rw [Option.some_inj.mp hq]
    norm_num
  · intro m hpk
    have hpk' : m ∉ objectProtoKeys := by simpa using hpk
    by_cases hm : m = ""
    · exact ⟨sonnetRate, by simp [getPricing, hm]⟩
    · cases h1 : PRICING.find? (fun q => q.1 == m) with
      | some q => exact ⟨q.2, by simp [getPricing, jsIndexPricing, hm, h1]⟩
      | none =>
        cases h2 : PRICING.find? (fun q => jsStartsWith m q.1 || jsStartsWith q.1 m) with
        | some q => exact ⟨q.2, by simp [getPricing, jsIndexPricing, hm, h1, hpk', h2]⟩
        | none =>
          by_cases h3 : jsIncludes (jsToLower m) "opus"
          · exact ⟨opusRate, by simp [getPricing, jsIndexPricing, hm, h1, hpk', h2, h3]⟩
          · by_cases h4 : jsIncludes (jsToLower m) "haiku"
            · exact ⟨haikuRate, by simp [getPricing, jsIndexPricing, hm, h1, hpk', h2, h3, h4]⟩
            · exact ⟨sonnetRate, by simp [getPricing, jsIndexPricing, hm, h1, hpk', h2, h3, h4]⟩
  · intro model i o cr cc q hi ho hcr hcc hq
    cases hg : getPricing model with
    | protoVal => simp [estimateCost, hg] at hq
    | rates p =>
      have hp := getPricing_rate_nonneg model p hg
      have h6 : (0 : ℚ) ≤ 1000000 := by norm_num
      simp only [estimateCost, hg, Option.some_inj] at hq
      have t1 : 0 ≤ i / 1000000 * p.input :=
        mul_nonneg (div_nonneg hi h6) hp.1
      have t2 : 0 ≤ o / 1000000 * p.output :=
        mul_nonneg (div_nonneg ho h6) hp.2
      have t3 : 0 ≤ cr / 1000000 * (p.input * 0.1) :=
        mul_nonneg (div_nonneg hcr h6) (mul_nonneg hp.1 (by norm_num))
      have t4 : 0 ≤ cc / 1000000 * (p.input * 1.25) :=
        mul_nonneg (div_nonneg hcc h6) (mul_nonneg hp.1 (by norm_num))
      rw [← hq]
      linarith

/-- Witness for C8: the no-collision part instantiated at an unknown model
name, and the non-negativity part at concrete non-negative counts. -/
theorem C8_estimate_cost_witness :
    (∃ p, getPricing (some "totally-unknown-model-xyz") = PricingResult.rates p) ∧
    0 ≤ ((8 : ℚ) * sonnetRate.input + 0 * sonnetRate.output +
      0 * (sonnetRate.input * 0.1) + 0 * (sonnetRate.input * 1.25)) / 1000000 := by
  constructor
  · exact C8_estimate_cost.2.2.2.1 "totally-unknown-model-xyz" (by decide)
  · exact C8_estimate_cost.2.2.2.2.1 (some "totally-unknown-model-xyz") 8 0 0 0 _
      (by norm_num) (by norm_num) (by norm_num) (by norm_num)
      (C8_estimate_cost.1 (some "totally-unknown-model-xyz") 8 0 0 0 sonnetRate
        (by decide))

/-- Claim C9: whenever the response body fails to parse as JSON,
`extractBody` returns the zero-valued usage — all four counts 0 and
`stopReason`/`model` null — rather than throwing (the function is total by
construction). -/
theorem C9_extract_body_malformed (rawBody : String)
    (h : parseJsonStr rawBody = none) :
    extractBody rawBody =
      { inputTokens := 0, outputTokens := 0, cacheRead := 0, cacheCreation := 0,
        stopReason := none, model := none } := by
  simp [extractBody, h, emptyUsage]

/-- Witness for C9: a concrete malformed body. -/
theorem C9_extract_body_malformed_witness :
    extractBody "not-json" =
      { inputTokens := 0, outputTokens := 0, cacheRead := 0, cacheCreation := 0,
        stopReason := none, model := none } :=
  C9_extract_body_malformed "not-json" (by rfl)

/-- Claim C10: a configured value of 0 for routing threshold, routing
known limit, alert warning percent, or alert critical percent is falsy in
the `||`-defaulting reads, so the router and alert evaluator behave
exactly as if the field were absent (defaults 80, 400000, 80, 95); in
particular a 0 threshold does not mean "always route" (at 20% used with
threshold 0 and known limit 0, nothing routes and no alert fires). -/
theorem C10_zero_config_means_default :
    (∀ (e : Bool) (kl : Option Int) (lad : Option (List (String × String)))
        (al : Option AlertsConfig) (snap : Option DbSnapshot),
        shouldRoute snap ⟨some ⟨e, some 0, kl, lad⟩, al⟩
          = shouldRoute snap ⟨some ⟨e, none, kl, lad⟩, al⟩) ∧
    (∀ (e : Bool) (th : Option Int) (lad : Option (List (String × String)))
        (al : Option AlertsConfig) (snap : Option DbSnapshot),
        shouldRoute snap ⟨some ⟨e, th, some 0, lad⟩, al⟩
          = shouldRoute snap ⟨some ⟨e, th, none, lad⟩, al⟩) ∧
    (∀ (r : Option RoutingConfig) (cp : Option Int) (snap : Snapshot) (fired : List String),
        checkAlerts snap ⟨r, some ⟨some 0, cp⟩⟩ fired
          = checkAlerts snap ⟨r, some ⟨none, cp⟩⟩ fired) ∧
    (∀ (r : Option RoutingConfig) (wp : Option Int) (snap : Snapshot) (fired : List String),
        checkAlerts snap ⟨r, some ⟨wp, some 0⟩⟩ fired
          = checkAlerts snap ⟨r, some ⟨wp, none⟩⟩ fired) ∧
    (∀ (e : Bool) (th : Option Int) (lad : Option (List (String × String)))
        (al : Option AlertsConfig) (snap : Snapshot) (fired : List String),
        checkAlerts snap ⟨some ⟨e, th, some 0, lad⟩, al⟩ fired
          = checkAlerts snap ⟨some ⟨e, th, none, lad⟩, al⟩ fired) ∧
    (shouldRoute (some ⟨some 320000, none, none, none⟩)
        ⟨some ⟨true, some 0, some 0, none⟩, none⟩).shouldRoute = false ∧
    checkAlerts ⟨none, none, some 320000, none, none, none, none⟩
        ⟨some ⟨true, some 0, some 0, none⟩, some ⟨some 0, some 0⟩⟩ [] = ([], []) := by
  have h20 : usedPercentCalc 400000 320000 = 20 := by norm_num [usedPercentCalc, jsRound]
  refine ⟨?_, ?_, ?_, ?_, ?_, ?_, ?_⟩
  · intro e kl lad al snap
    rcases snap with _ | s
    · simp [shouldRoute, jsOr]
    · cases h : s.tokens_remaining <;> simp [shouldRoute, jsOr, h]
  · intro e th lad al snap
    rcases snap with _ | s
    · simp [shouldRoute, jsOr]
    · cases h : s.tokens_remaining <;> simp [shouldRoute, jsOr, h]
  · intro r cp snap fired
    cases h : snap.tokensRemaining <;>
      simp [checkAlerts, warningPctOf, criticalPctOf, alertsOf, alertKnownLimitOf,
        warningKeyOf, criticalKeyOf, jsOr, h]
  · intro r wp snap fired
    cases h : snap.tokensRemaining <;>
      simp [checkAlerts, warningPctOf, criticalPctOf, alertsOf, alertKnownLimitOf,
        warningKeyOf, criticalKeyOf, jsOr, h]
  · intro e th lad al snap fired
    cases h : snap.tokensRemaining <;>
      simp [checkAlerts, warningPctOf, criticalPctOf, alertsOf, alertKnownLimitOf,
        warningKeyOf, criticalKeyOf, jsOr, h]
  · simp [shouldRoute, jsOr, h20]
  · have hw : warningKeyOf ⟨some ⟨true, some 0, some 0, none⟩, some ⟨some 0, some 0⟩⟩
        = "warning-80" := by decide
    have hc : criticalKeyOf ⟨some ⟨true, some 0, some 0, none⟩, some ⟨some 0, some 0⟩⟩
        = "critical-95" := by decide
    simp [checkAlerts, warningPctOf, criticalPctOf, alertsOf, alertKnownLimitOf,
      jsOr, hw, hc, h20]

/-- Absence of an exact own entry, of a prefix entry, and of a collision
with an `Object.prototype` member name makes `findDowngrade` return null. -/
theorem findDowngrade_eq_none (m : String) (ladder : List (String × String))
    (hexact : ladder.find? (fun p => p.1 == m) = none)
    (hpre : ladder.find? (fun p => jsStartsWith m p.1) = none)
    (hproto : objectProtoKeys.contains m = false) :
    findDowngrade m ladder = none := by
  have hproto' : m ∉ objectProtoKeys := by simpa using hproto
  by_cases hm : m = ""
  · simp [findDowngrade, hm]
  · simp [findDowngrade, jsIndexLadder, hm, hexact, hpre, hproto']

/-- Claim C7 as stated is false at a concrete input: the model name
`constructor` has neither an exact nor a prefix entry in the default
ladder, yet `ladder['constructor']` is the truthy `Object` constructor
inherited through the prototype chain, so with routing triggered the
router does rewrite — `routedFrom`/`routedTo` are non-null and the body's
model field is replaced by the inherited non-string value. -/
theorem C7_counterexample :
    DEFAULT_LADDER.find? (fun p => p.1 == "constructor") = none ∧
    DEFAULT_LADDER.find? (fun p => jsStartsWith "constructor" p.1) = none ∧
    maybeReroute (some ⟨some "constructor", []⟩) (some ⟨some 4000, none, none, none⟩)
        ⟨some ⟨true, some 80, some 400000, none⟩, none⟩
      = ⟨RoutedBody.modelSet ⟨some "constructor", []⟩ Downgrade.protoVal,
          some "constructor", some Downgrade.protoVal, some 99⟩ := by
  have h99 : usedPercentCalc 400000 4000 = 99 := by norm_num [usedPercentCalc, jsRound]
  have hfd : findDowngrade "constructor" DEFAULT_LADDER = some Downgrade.protoVal := by decide
  refine ⟨by decide, by decide, ?_⟩
  simp [maybeReroute, shouldRoute, jsOr, h99, ladderOf, hfd]

/-- Claim C7, amended: one routing call rewrites at most one ladder step —
either nothing is rewritten and the body passes through untouched, or the
target is exactly `findDowngrade` of the requested model (never the ladder
entry of that target); whenever the body's model has no ladder entry
(neither exact nor prefix) and its name is not an `Object.prototype`
member, the body is returned unmodified with null routing metadata,
regardless of the used percent — in particular the ladder-floor model
`claude-haiku-4-6` is not rewritten even at 99% usage. A colliding name
such as `constructor` is instead rewritten to the truthy inherited value. -/
theorem C7_single_hop (requestBody : Option RequestBody)
    (latestSnapshot : Option DbSnapshot) (config : Config) :
    (((maybeReroute requestBody latestSnapshot config).routedTo = none ∧
      (maybeReroute requestBody latestSnapshot config).routedFrom = none ∧
      (maybeReroute requestBody latestSnapshot config).body = RoutedBody.orig requestBody) ∨
      (∃ b m t, requestBody = some b ∧ b.model = some m ∧
        findDowngrade m (ladderOf config) = some t ∧
        t ≠ Downgrade.str "" ∧ t ≠ Downgrade.str m ∧
        (maybeReroute requestBody latestSnapshot config).routedFrom = some m ∧
        (maybeReroute requestBody latestSnapshot config).routedTo = some t ∧
        (maybeReroute requestBody latestSnapshot config).body = RoutedBody.modelSet b t)) ∧
    (∀ b m, requestBody = some b → b.model = some m →
        (ladderOf config).find? (fun p => p.1 == m) = none →
        (ladderOf config).find? (fun p => jsStartsWith m p.1) = none →
        objectProtoKeys.contains m = false →
        (maybeReroute requestBody latestSnapshot config).body = RoutedBody.orig requestBody ∧
        (maybeReroute requestBody latestSnapshot config).routedFrom = none ∧
        (maybeReroute requestBody latestSnapshot config).routedTo = none) ∧
    maybeReroute (some ⟨some "claude-haiku-4-6", []⟩) (some ⟨some 4000, none, none, none⟩)
        ⟨some ⟨true, some 80, some 400000, none⟩, none⟩
      = ⟨RoutedBody.orig (some ⟨some "claude-haiku-4-6", []⟩), none, none, some 99⟩ := by
  have h99 : usedPercentCalc 400000 4000 = 99 := by norm_num [usedPercentCalc, jsRound]
  have hfdh : findDowngrade "claude-haiku-4-6" DEFAULT_LADDER = none := by decide
  refine ⟨?_, ?_, ?_⟩
  · rcases requestBody with _ | b
    · exact Or.inl (by simp [maybeReroute])
    · by_cases hr : (shouldRoute latestSnapshot config).shouldRoute
      · cases hm : b.model with
        | none => exact Or.inl (by simp [maybeReroute, hr, hm])
        | some m =>
          by_cases hme : m = ""
          · exact Or.inl (by simp [maybeReroute, hr, hm, hme])
          · cases hfd : findDowngrade m (ladderOf config) with
            | none => exact Or.inl (by simp [maybeReroute, hr, hm, hme, hfd])
            | some t =>
              by_cases hte : t = Downgrade.str "" ∨ t = Downgrade.str m
              · exact Or.inl (by simp [maybeReroute, hr, hm, hme, hfd, hte])
              · rw [not_or] at hte
                refine Or.inr ⟨b, m, t, rfl, hm, hfd, hte.1, hte.2, ?_, ?_, ?_⟩ <;>
                  simp [maybeReroute, hr, hm, hme, hfd, hte.1, hte.2]
      · exact Or.inl (by simp [maybeReroute, hr])
  · intro b m hb hm hexact hpre hproto
    subst hb
    have hfd := findDowngrade_eq_none m (ladderOf config) hexact hpre hproto
    by_cases hr : (shouldRoute latestSnapshot config).shouldRoute
    · by_cases hme : m = ""
      · refine ⟨?_, ?_, ?_⟩ <;> simp [maybeReroute, hr, hm, hme]
      · refine ⟨?_, ?_, ?_⟩ <;> simp [maybeReroute, hr, hm, hme, hfd]
    · refine ⟨?_, ?_, ?_⟩ <;> simp [maybeReroute, hr]
  · simp [maybeReroute, shouldRoute, jsOr, h99, ladderOf, hfdh]

/-- Witness for C7: the no-ladder-entry part instantiated at the
ladder-floor model under 99% usage. -/
theorem C7_single_hop_witness :
    (maybeReroute (some ⟨some "claude-haiku-4-6", []⟩)
        (some ⟨some 4000, none, none, none⟩)
        ⟨some ⟨true, some 80, some 400000, none⟩, none⟩).routedTo = none :=
  ((C7_single_hop (some ⟨some "claude-haiku-4-6", []⟩)
      (some ⟨some 4000, none, none, none⟩)
      ⟨some ⟨true, some 80, some 400000, none⟩, none⟩).2.1
    ⟨some "claude-haiku-4-6", []⟩ "claude-haiku-4-6" rfl rfl
    (by decide) (by decide) (by decide)).2.2

/-- Unfolding of `checkAlerts` when tokens-remaining is present. -/
theorem checkAlerts_some (snap : Snapshot) (cfg : Config) (fired : List String) (r : Int)
    (h : snap.tokensRemaining = some r) :
    checkAlerts snap cfg fired =
      (let p := usedPercentCalc (alertKnownLimitOf cfg) r
       let s1 : List String × List AlertEvent :=
         if p ≥ warningPctOf cfg ∧ ¬ fired.contains (warningKeyOf cfg) then
           (warningKeyOf cfg :: fired, [AlertEvent.warning (warningPctOf cfg) p r])
         else (fired, [])
       let s2 : List String × List AlertEvent :=
         if p ≥ criticalPctOf cfg ∧ ¬ s1.1.contains (criticalKeyOf cfg) then
           (criticalKeyOf cfg :: s1.1, s1.2 ++ [AlertEvent.critical (criticalPctOf cfg) p r])
         else s1
       if p < warningPctOf cfg ∧ s2.1 ≠ [] then ([], s2.2 ++ [AlertEvent.recovery r p])
       else s2) := by
  simp only [checkAlerts, h]

/-- Key strings of the two tiers are always distinct (different prefixes). -/
theorem warningKeyOf_ne_criticalKeyOf (cfg : Config) :
    warningKeyOf cfg ≠ criticalKeyOf cfg := by
  unfold warningKeyOf criticalKeyOf
  intro h
  have h2 := congrArg String.data h
  have ha : ∀ s t : String, (s ++ t).data = s.data ++ t.data := fun _ _ => rfl
  rw [ha, ha] at h2
  have hw : "warning-".data = 'w' :: "arning-".data := rfl
  have hc : "critical-".data = 'c' :: "ritical-".data := rfl
  rw [hw, hc] at h2
  simp at h2

/-- Step with the warning key already fired and usage at or above the
warning threshold: no warning event, no recovery, key retained. -/
theorem alertStep_warn_persist (snap : Snapshot) (cfg : Config) (fired : List String) (r : Int)
    (h : snap.tokensRemaining = some r)
    (hW : warningPctOf cfg ≤ usedPercentCalc (alertKnownLimitOf cfg) r)
    (hin : warningKeyOf cfg ∈ fired) :
    (checkAlerts snap cfg fired).2.countP isWarningEv = 0 ∧
    (checkAlerts snap cfg fired).2.countP isRecoveryEv = 0 ∧
    warningKeyOf cfg ∈ (checkAlerts snap cfg fired).1 := by
  rw [checkAlerts_some snap cfg fired r h]
  have hnlt : ¬ (usedPercentCalc (alertKnownLimitOf cfg) r < warningPctOf cfg) := not_lt.mpr hW
  simp only []
  split_ifs with h1 h2 h3 <;>
    simp_all [isWarningEv, isCriticalEv, isRecoveryEv]

/-- Step with the warning key not yet fired and usage at or above the
warning threshold: exactly one warning event, no recovery, key added. -/
theorem alertStep_warn_fire (snap : Snapshot) (cfg : Config) (fired : List String) (r : Int)
    (h : snap.tokensRemaining = some r)
    (hW : warningPctOf cfg ≤ usedPercentCalc (alertKnownLimitOf cfg) r)
    (hout : warningKeyOf cfg ∉ fired) :
    (checkAlerts snap cfg fired).2.countP isWarningEv = 1 ∧
    (checkAlerts snap cfg fired).2.countP isRecoveryEv = 0 ∧
    warningKeyOf cfg ∈ (checkAlerts snap cfg fired).1 := by
  rw [checkAlerts_some snap cfg fired r h]
  have hnlt : ¬ (usedPercentCalc (alertKnownLimitOf cfg) r < warningPctOf cfg) := not_lt.mpr hW
  simp only []
  split_ifs with h1 h2 h3 <;>
    simp_all [isWarningEv, isCriticalEv, isRecoveryEv]

/-- Step with the critical key already fired and usage at or above the
warning threshold: no critical event, no recovery, key retained. -/
theorem alertStep_crit_persist (snap : Snapshot) (cfg : Config) (fired : List String) (r : Int)
    (h : snap.tokensRemaining = some r)
    (hW : warningPctOf cfg ≤ usedPercentCalc (alertKnownLimitOf cfg) r)
    (hin : criticalKeyOf cfg ∈ fired) :
    (checkAlerts snap cfg fired).2.countP isCriticalEv = 0 ∧
    (checkAlerts snap cfg fired).2.countP isRecoveryEv = 0 ∧
    criticalKeyOf cfg ∈ (checkAlerts snap cfg fired).1 := by
  rw [checkAlerts_some snap cfg fired r h]
  have hnlt : ¬ (usedPercentCalc (alertKnownLimitOf cfg) r < warningPctOf cfg) := not_lt.mpr hW
  simp only []
  split_ifs with h1 h2 h3 <;>
    simp_all [isWarningEv, isCriticalEv, isRecoveryEv]

/-- Step with the critical key not yet fired and usage at or above both
thresholds: exactly one critical event, no recovery, key added. -/
theorem alertStep_crit_fire (snap : Snapshot) (cfg : Config) (fired : List String) (r : Int)
    (h : snap.tokensRemaining = some r)
    (hW : warningPctOf cfg ≤ usedPercentCalc (alertKnownLimitOf cfg) r)
    (hC : criticalPctOf cfg ≤ usedPercentCalc (alertKnownLimitOf cfg) r)
    (hout : criticalKeyOf cfg ∉ fired) :
    (checkAlerts snap cfg fired).2.countP isCriticalEv = 1 ∧
    (checkAlerts snap cfg fired).2.countP isRecoveryEv = 0 ∧
    criticalKeyOf cfg ∈ (checkAlerts snap cfg fired).1 := by
  rw [checkAlerts_some snap cfg fired r h]
  have hnlt : ¬ (usedPercentCalc (alertKnownLimitOf cfg) r < warningPctOf cfg) := not_lt.mpr hW
  have hne := warningKeyOf_ne_criticalKeyOf cfg
  have hne' := hne.symm
  simp only []
  split_ifs with h1 h2 h3 <;>
    simp_all [isWarningEv, isCriticalEv, isRecoveryEv]

/-- Step with the warning key already fired: no warning event, with no
assumption on the usage level. -/
theorem alertStep_warn_nofire_of_mem (snap : Snapshot) (cfg : Config) (fired : List String)
    (r : Int) (h : snap.tokensRemaining = some r)
    (hin : warningKeyOf cfg ∈ fired) :
    (checkAlerts snap cfg fired).2.countP isWarningEv = 0 := by
  rw [checkAlerts_some snap cfg fired r h]
  simp only []
  split_ifs with h1 h2 h3 <;>
    simp_all [isWarningEv, isCriticalEv, isRecoveryEv]

/-- Step with the critical key already fired: no critical event, with no
assumption on the usage level. -/
theorem alertStep_crit_nofire_of_mem (snap : Snapshot) (cfg : Config) (fired : List String)
    (r : Int) (h : snap.tokensRemaining = some r)
    (hin : criticalKeyOf cfg ∈ fired) :
    (checkAlerts snap cfg fired).2.countP isCriticalEv = 0 := by
  rw [checkAlerts_some snap cfg fired r h]
  simp only []
  split_ifs with h1 h2 h3 <;>
    simp_all [isWarningEv, isCriticalEv, isRecoveryEv]

/-- Run over snapshots all at or above the warning threshold, starting
with the warning key already fired: no further warning events and no
recovery events. -/
theorem runAlerts_warn_quiet (cfg : Config) (snaps : List Snapshot) :
    ∀ fired, (∀ s ∈ snaps, ∃ r, s.tokensRemaining = some r ∧
        warningPctOf cfg ≤ usedPercentCalc (alertKnownLimitOf cfg) r) →
    warningKeyOf cfg ∈ fired →
    (runAlerts cfg snaps fired).2.countP isWarningEv = 0 ∧
    (runAlerts cfg snaps fired).2.countP isRecoveryEv = 0 := by
  induction snaps with
  | nil => intro fired _ _; simp [runAlerts]
  | cons s rest ih =>
    intro fired hall hin
    obtain ⟨r, hrem, hW⟩ := hall s (by simp)
    have hstep := alertStep_warn_persist s cfg fired r hrem hW hin
    have hrest := ih (checkAlerts s cfg fired).1
      (fun x hx => hall x (by simp [hx])) hstep.2.2
    simp only [runAlerts, List.countP_append]
    omega

/-- Run over snapshots all at or above the warning threshold, starting
with the critical key already fired: no further critical events and no
recovery events. -/
theorem runAlerts_crit_quiet (cfg : Config) (snaps : List Snapshot) :
    ∀ fired, (∀ s ∈ snaps, ∃ r, s.tokensRemaining = some r ∧
        warningPctOf cfg ≤ usedPercentCalc (alertKnownLimitOf cfg) r) →
    criticalKeyOf cfg ∈ fired →
    (runAlerts cfg snaps fired).2.countP isCriticalEv = 0 ∧
    (runAlerts cfg snaps fired).2.countP isRecoveryEv = 0 := by
  induction snaps with
  | nil => intro fired _ _; simp [runAlerts]
  | cons s rest ih =>
    intro fired hall hin
    obtain ⟨r, hrem, hW⟩ := hall s (by simp)
    have hstep := alertStep_crit_persist s cfg fired r hrem hW hin
    have hrest := ih (checkAlerts s cfg fired).1
      (fun x hx => hall x (by simp [hx])) hstep.2.2
    simp only [runAlerts, List.countP_append]
    omega

/-- Claim C4: for a fixed threshold configuration, a nonempty snapshot
sequence whose used percent stays at or above the warning threshold fires
the warning alert exactly once and emits no recovery; a sequence staying
at or above both thresholds fires the critical alert exactly once and
emits no recovery; a fired key is removed from the dedup state only by the
recovery path, which clears the whole state, emits a recovery event, and
happens only on a snapshot whose used percent is below the warning
threshold; and a tier can emit a fire event only when its key is not
already in the fired state. -/
theorem C4_alert_dedup_once_per_excursion (cfg : Config) :
    (∀ snaps : List Snapshot, snaps ≠ [] →
      (∀ s ∈ snaps, ∃ r, s.tokensRemaining = some r ∧
          warningPctOf cfg ≤ usedPercentCalc (alertKnownLimitOf cfg) r) →
      (runAlerts cfg snaps []).2.countP isWarningEv = 1 ∧
      (runAlerts cfg snaps []).2.countP isRecoveryEv = 0) ∧
    (∀ snaps : List Snapshot, snaps ≠ [] →
      (∀ s ∈ snaps, ∃ r, s.tokensRemaining = some r ∧
          warningPctOf cfg ≤ usedPercentCalc (alertKnownLimitOf cfg) r ∧
          criticalPctOf cfg ≤ usedPercentCalc (alertKnownLimitOf cfg) r) →
      (runAlerts cfg snaps []).2.countP isCriticalEv = 1 ∧
      (runAlerts cfg snaps []).2.countP isRecoveryEv = 0) ∧
    (∀ (snap : Snapshot) (fired : List String) (k : String),
      k ∈ fired → k ∉ (checkAlerts snap cfg fired).1 →
      (checkAlerts snap cfg fired).2.countP isRecoveryEv = 1 ∧
      (checkAlerts snap cfg fired).1 = [] ∧
      ∃ r, snap.tokensRemaining = some r ∧
        usedPercentCalc (alertKnownLimitOf cfg) r < warningPctOf cfg) ∧
    (∀ (snap : Snapshot) (fired : List String),
      0 < (checkAlerts snap cfg fired).2.countP isWarningEv →
      warningKeyOf cfg ∉ fired) ∧
    (∀ (snap : Snapshot) (fired : List String),
      0 < (checkAlerts snap cfg fired).2.countP isCriticalEv →
      criticalKeyOf cfg ∉ fired) := by
  refine ⟨?_, ?_, ?_, ?_, ?_⟩
  · rintro (_ | ⟨s, rest⟩) hne hall
    · exact absurd rfl hne
    obtain ⟨r, hrem, hW⟩ := hall s (by simp)
    have hstep := alertStep_warn_fire s cfg [] r hrem hW (by simp)
    have hrest := runAlerts_warn_quiet cfg rest (checkAlerts s cfg []).1
      (fun x hx => hall x (by simp [hx])) hstep.2.2
    simp only [runAlerts, List.countP_append]
    omega
  · rintro (_ | ⟨s, rest⟩) hne hall
    · exact absurd rfl hne
    obtain ⟨r, hrem, hW, hC⟩ := hall s (by simp)
    have hstep := alertStep_crit_fire s cfg [] r hrem hW hC (by simp)
    have hrest := runAlerts_crit_quiet cfg rest (checkAlerts s cfg []).1
      (fun x hx => (hall x (by simp [hx])).imp
        (fun r hr => ⟨hr.1, hr.2.1⟩)) hstep.2.2
    simp only [runAlerts, List.countP_append]
    omega
  · intro snap fired k hk hnot
    cases hrem : snap.tokensRemaining with
    | none =>
      simp only [checkAlerts, hrem] at hnot
      exact absurd hk hnot
    | some r =>
      rw [checkAlerts_some snap cfg fired r hrem] at hnot ⊢
      simp only [] at hnot ⊢
      set p := usedPercentCalc (alertKnownLimitOf cfg) r with hp
      set s1 := (if p ≥ warningPctOf cfg ∧ ¬ fired.contains (warningKeyOf cfg) then
          (warningKeyOf cfg :: fired, [AlertEvent.warning (warningPctOf cfg) p r])
        else (fired, [])) with hs1
      set s2 := (if p ≥ criticalPctOf cfg ∧ ¬ s1.1.contains (criticalKeyOf cfg) then
          (criticalKeyOf cfg :: s1.1, s1.2 ++ [AlertEvent.critical (criticalPctOf cfg) p r])
        else s1) with hs2
      have hks1 : k ∈ s1.1 := by
        rw [hs1]; split <;> simp [hk]
      have hks2 : k ∈ s2.1 := by
        rw [hs2]; split <;> simp [hks1]
      have hs1rec : s1.2.countP isRecoveryEv = 0 := by
        rw [hs1]; split <;> simp [isRecoveryEv]
      have hs2rec : s2.2.countP isRecoveryEv = 0 := by
        rw [hs2]; split <;> simp [isRecoveryEv, List.countP_append, hs1rec]
      by_cases h3 : (p < warningPctOf cfg ∧ s2.1 ≠ [])
      · rw [if_pos h3] at hnot ⊢
        refine ⟨?_, rfl, r, rfl, h3.1⟩
        simp [List.countP_append, hs2rec, isRecoveryEv]
      · rw [if_neg h3] at hnot
        exact absurd hks2 hnot
  · intro snap fired h0
    by_contra hin
    cases hrem : snap.tokensRemaining with
    | none =>
      simp only [checkAlerts, hrem] at h0
      simp at h0
    | some r =>
      have := alertStep_warn_nofire_of_mem snap cfg fired r hrem hin
      omega
  · intro snap fired h0
    by_contra hin
    cases hrem : snap.tokensRemaining with
    | none =>
      simp only [checkAlerts, hrem] at h0
      simp at h0
    | some r =>
      have := alertStep_crit_nofire_of_mem snap cfg fired r hrem hin
      omega

/-- Witness for C4: feeding the same 98%-used snapshot twice under the
default thresholds fires the warning alert exactly once and the critical
alert exactly once. -/
theorem C4_alert_dedup_once_per_excursion_witness :
    (runAlerts ⟨none, none⟩
        [⟨none, none, some 10000, none, none, none, none⟩,
          ⟨none, none, some 10000, none, none, none, none⟩] []).2.countP isWarningEv = 1 ∧
    (runAlerts ⟨none, none⟩
        [⟨none, none, some 10000, none, none, none, none⟩,
          ⟨none, none, some 10000, none, none, none, none⟩] []).2.countP isCriticalEv = 1 := by
  have h98 : usedPercentCalc (alertKnownLimitOf ⟨none, none⟩) 10000 = 98 := by
    norm_num [usedPercentCalc, alertKnownLimitOf, jsOr, jsRound]
  have hW : warningPctOf ⟨none, none⟩ = 80 := by simp [warningPctOf, alertsOf, jsOr]
  have hC : criticalPctOf ⟨none, none⟩ = 95 := by simp [criticalPctOf, alertsOf, jsOr]
  constructor
  · exact ((C4_alert_dedup_once_per_excursion ⟨none, none⟩).1 _ (by simp)
      (by intro s hs
          simp only [List.mem_cons, List.not_mem_nil, or_false] at hs
          rcases hs with rfl | rfl <;>
            exact ⟨10000, rfl, by rw [h98, hW]; norm_num⟩)).1
  · exact ((C4_alert_dedup_once_per_excursion ⟨none, none⟩).2.1 _ (by simp)
      (by intro s hs
          simp only [List.mem_cons, List.not_mem_nil, or_false] at hs
          rcases hs with rfl | rfl <;>
            exact ⟨10000, rfl, by rw [h98, hW]; norm_num, by rw [h98, hC]; norm_num⟩)).1

namespace StreamTap

/-- Trailing fragment of a split never contains a newline: the tap buffers
at most one partial line. -/
theorem splitNl_snd_no_newline (l : List Char) : '\n' ∉ (splitNl l).2 := by
  induction l with
  | nil => simp [splitNl]
  | cons c rest ih =>
    by_cases hc : c = '\n'
    · subst hc
      simp [splitNl, ih]
    · cases hr : (splitNl rest).1 with
      | nil =>
        simp only [splitNl, if_neg hc, hr]
        intro hmem
        rcases List.mem_cons.mp hmem with h | h
        · exact hc h.symm
        · exact ih h
      | cons p ps =>
        simp only [splitNl, if_neg hc, hr]
        exact ih

/-- Splitting a newline-free buffer yields no complete line and keeps the
buffer whole. -/
theorem splitNl_no_newline (l : List Char) (h : '\n' ∉ l) : splitNl l = ([], l) := by
  induction l with
  | nil => rfl
  | cons c rest ih =>
    have hc : ¬ c = '\n' := fun hcc => h (hcc ▸ List.mem_cons_self c rest)
    have hrest := ih (fun hm => h (List.mem_cons_of_mem c hm))
    simp [splitNl, hc, hrest]

/-- Seam decomposition of line splitting over concatenation: the complete
lines of `x ++ y` are the complete lines of `x` followed by those of the
trailing fragment of `x` prepended to `y`, with the same final fragment. -/
theorem splitNl_append (x y : List Char) :
    splitNl (x ++ y) = ((splitNl x).1 ++ (splitNl ((splitNl x).2 ++ y)).1,
      (splitNl ((splitNl x).2 ++ y)).2) := by
  induction x with
  | nil => simp [splitNl]
  | cons c x ih =>
    by_cases hc : c = '\n'
    · subst hc
      simp [splitNl, ih]
    · cases hA : (splitNl x).1 with
      | nil =>
        cases hB : (splitNl ((splitNl x).2 ++ y)).1 with
        | nil => simp [splitNl, ih, hA, hB, hc]
        | cons q qs => simp [splitNl, ih, hA, hB, hc]
      | cons p ps =>
        simp [splitNl, ih, hA, hc]

/-- Usage accumulated by the line loop does not depend on the initial
`currentEvent` (the source's `_parseEvent` never reads its event-type
argument; dispatch is on the payload's `type` field). -/
theorem foldl_lineStep_snd_ev (lines : List (List Char)) :
    ∀ (ev ev' : Option (List Char)) (u : Usage),
      (lines.foldl lineStep (ev, u)).2 = (lines.foldl lineStep (ev', u)).2 := by
  induction lines with
  | nil => intro ev ev' u; rfl
  | cons l rest ih =>
    intro ev ev' u
    simp only [List.foldl_cons]
    by_cases h1 : "event:".toList.isPrefixOf l
    · simp only [lineStep, h1, if_pos]
    · by_cases h2 : "data:".toList.isPrefixOf l
      · simp only [lineStep, h1, h2, if_neg, if_pos]
        by_cases h3 : jsTrim (l.drop 5) = "[DONE]".toList
        · simp only [h3, if_pos]
          exact ih _ _ _
        · simp only [h3, if_neg]
          cases hp : parseJsonStr (jsTrim (l.drop 5)).asString with
          | none => exact ih _ _ _
          | some d => exact ih _ _ _
      · simp only [lineStep, h1, h2, if_neg]
        exact ih _ _ _

/-- State composition of the tap: transforming two chunks in sequence
leaves the same buffer and usage as transforming their concatenation. -/
theorem transform_transform (st : State) (a b : List Char) :
    (transform (transform st a).1 b).1 = (transform st (a ++ b)).1 := by
  unfold transform
  simp only []
  rw [← List.append_assoc]
  rw [splitNl_append (st.buffer ++ a) b]
  simp only [List.foldl_append, State.mk.injEq]
  refine ⟨trivial, ?_⟩
  rw [show ((splitNl (st.buffer ++ a)).1.foldl lineStep (none, st.usage))
        = (((splitNl (st.buffer ++ a)).1.foldl lineStep (none, st.usage)).1,
           ((splitNl (st.buffer ++ a)).1.foldl lineStep (none, st.usage)).2) from rfl]
  exact (foldl_lineStep_snd_ev _ _ _ _).symm

/-- Outputs of a run: the tap pushes each written chunk through verbatim
(`this.push(chunk)` precedes all parsing). -/
theorem runChunks_snd (chunks : List (List Char)) :
    ∀ st, (runChunks st chunks).2 = chunks := by
  induction chunks with
  | nil => intro st; rfl
  | cons c cs ih =>
    intro st
    simp only [runChunks, ih]
    rfl

/-- State after a chunked run equals the state after one transform of the
concatenation, provided the starting buffer holds no newline. -/
theorem runChunks_state_join (chunks : List (List Char)) :
    ∀ st : State, '\n' ∉ st.buffer →
      (runChunks st chunks).1 = (transform st chunks.flatten).1 := by
  induction chunks with
  | nil =>
    intro st h
    cases st with
    | mk buffer usage =>
      simp only [runChunks, transform, List.flatten_nil, List.append_nil]
      rw [splitNl_no_newline buffer h]
      rfl
  | cons c cs ih =>
    intro st h
    simp only [runChunks]
    rw [ih (transform st c).1 (by
      simp only [transform]
      exact splitNl_snd_no_newline _)]
    rw [transform_transform]
    simp [List.flatten_cons]

end StreamTap

/-- Claim C1: for every sequence of chunks written to the stream tap, the
concatenation of the bytes pushed downstream is identical to the
concatenation of the inputs, and the internal buffer never holds more than
one partial line (it contains no newline) — the tap forwards every byte
unchanged while buffering at most the current incomplete line. -/
theorem C1_stream_tap_passthrough (chunks : List (List Char)) :
    (StreamTap.runChunks StreamTap.initState chunks).2.flatten = chunks.flatten ∧
    '\n' ∉ (StreamTap.runChunks StreamTap.initState chunks).1.buffer := by
  constructor
  · rw [StreamTap.runChunks_snd chunks StreamTap.initState]
  · rw [StreamTap.runChunks_state_join chunks StreamTap.initState (by simp [StreamTap.initState])]
    simp only [StreamTap.transform]
    exact StreamTap.splitNl_snd_no_newline _

set_option maxRecDepth 400000 in
/-- Claim C2: for every way of chunking the two-event streaming exchange
(one `message_start` with `input_tokens` 30, one `message_delta` with
`output_tokens` 60, the final data line left unterminated so it is parsed
from the buffer by the flush path), the usage delivered to the completion
callback is `{input: 30, output: 60}`; and duplicate start/delta events
accumulate by addition (10+20 input, 5+7 cache reads, 25+35 output). -/
theorem C2_stream_usage_chunking_invariant :
    (∀ chunks : List (List Char), chunks.flatten = sseExchange.toList →
      StreamTap.finalUsage chunks =
        ⟨30, 60, 0, 0, some "end_turn", some "claude-opus-4-6"⟩) ∧
    StreamTap.finalUsage [sseExchangeDup.toList] =
      ⟨30, 60, 12, 0, some "end_turn", none⟩ := by
  constructor
  · intro chunks h
    unfold StreamTap.finalUsage
    rw [StreamTap.runChunks_state_join chunks StreamTap.initState
      (by simp [StreamTap.initState]), h]
    decide
  · decide

set_option maxRecDepth 400000 in
/-- Witness for C2: the whole exchange written as a single chunk. -/
theorem C2_stream_usage_chunking_invariant_witness :
    StreamTap.finalUsage [sseExchange.toList] =
      ⟨30, 60, 0, 0, some "end_turn", some "claude-opus-4-6"⟩ :=
  C2_stream_usage_chunking_invariant.1 [sseExchange.toList] (by simp)

end Tollgate
